import Mathlib

/-!
Verification development for the Student-Finance-Manager web app
(`src/script.js`): a single-page budget tracker with a flat state record
`{allowance, goal, expenses}`, localStorage persistence, derived dashboard
metrics (balance, daily budget, health status, savings progress), form
handlers, and a filter/sort pipeline for the expense list.

Modelling conventions (shallow embedding of the JavaScript source):
* JavaScript numbers are idealised as `ℚ` (the claims under scrutiny are
  about exact arithmetic and control flow, not float rounding).
* A calendar date (the `"YYYY-MM-DD"` strings stored in `expense.date`)
  is represented by its epoch day number (`ℤ`, days since 1970-01-01);
  two dates are the same calendar day iff their day numbers are equal.
* Instants (`Date` objects / `Date.now()`) are represented as minutes
  since the epoch (`ℤ`).  The browser environment's local timezone is a
  fixed UTC offset `tz` in minutes, `-1440 < tz < 1440` (DST is not
  modelled).  `new Date("YYYY-MM-DD")` parses as *UTC midnight* of that
  date (ECMA-262 date-only forms); the component getters
  `getFullYear/getMonth/getDate` read the *local* calendar day, i.e. the
  epoch day of `(instant + tz)`.
* `localStorage` holds either nothing, a parsable JSON document
  (represented by its parse tree `Json`, since `JSON.parse` and
  `JSON.stringify` are mutually inverse on documents the string layer
  adds nothing), or an unparsable blob (`Stored.corrupt`, standing for
  any string on which `JSON.parse` throws a `SyntaxError`, e.g. `"{"`).
-/

namespace StudentFinance

/-- An expense entry as created by the expense-form handler in
`script.js`: `{id: Date.now(), amount, category, date, note}`.  `date`
is the epoch day number of the stored `"YYYY-MM-DD"` string. -/
structure Expense where
  id : ℚ
  amount : ℚ
  category : String
  date : ℤ
  note : String
deriving DecidableEq, Repr

/-- The flat state object of `script.js`:
`const state = { allowance: 0, goal: 0, expenses: [] }`. -/
structure LedgerState where
  allowance : ℚ
  goal : ℚ
  expenses : List Expense
deriving DecidableEq, Repr

/-- The zero-default record the state is initialised to. -/
def initialState : LedgerState := ⟨0, 0, []⟩

/-! ## Metrics engine (`updateDashboard` / `updateHealthIndicator` /
`updateSavingsProgress`) -/

/-- Lifetime total spent:
`state.expenses.reduce((sum, exp) => sum + exp.amount, 0)`. -/
def totalSpent (st : LedgerState) : ℚ :=
  st.expenses.foldl (fun sum exp => sum + exp.amount) 0

/-- Current balance: `state.allowance - totalSpent`. -/
def balance (st : LedgerState) : ℚ :=
  st.allowance - totalSpent st

/-- Gregorian leap-year rule, as implemented by the JavaScript `Date`
calendar. -/
def isLeapYear (y : ℤ) : Bool :=
  (y % 4 == 0 && y % 100 != 0) || y % 400 == 0

/-- Number of days in month `m` (JavaScript month index, `0` = January)
of year `y`: models `new Date(y, m + 1, 0).getDate()` in
`updateDashboard`. -/
def daysInMonth (y : ℤ) (m : ℕ) : ℕ :=
  if m == 1 then (if isLeapYear y then 29 else 28)
  else if m == 3 || m == 5 || m == 8 || m == 10 then 30
  else 31

/-- Days remaining in the month: `daysInMonth - new Date().getDate()`
where `d` is today's day of month. -/
def remainingDaysOf (y : ℤ) (m : ℕ) (d : ℤ) : ℤ :=
  (daysInMonth y m : ℤ) - d

/-- The denominator `(remainingDays || 1)` used in
`updateHealthIndicator`: JavaScript `||` replaces the falsy value `0`
by `1` and keeps every other number. -/
def jsDenom (remainingDays : ℤ) : ℚ :=
  if remainingDays = 0 then 1 else (remainingDays : ℚ)

/-- Daily budget: `balance / (remainingDays || 1)` from
`updateHealthIndicator`. -/
def dailyBudget (bal : ℚ) (remainingDays : ℤ) : ℚ :=
  bal / jsDenom remainingDays

/-- The five texts the health indicator can display. -/
inductive HealthStatus where
  | setAllowance
  | critical
  | tight
  | healthy
  | careful
deriving DecidableEq, Repr

/-- The branch structure of `updateHealthIndicator(balance,
remainingDays, totalDays)`: first the `state.allowance === 0` early
return, then the `balance < 0` / `dailyBudget < idealDaily * 0.5` /
`dailyBudget >= idealDaily` chain with `Careful` as the final `else`. -/
def updateHealthIndicator (allowance bal : ℚ) (remainingDays totalDays : ℤ) :
    HealthStatus :=
  let db := dailyBudget bal remainingDays
  if allowance = 0 then .setAllowance
  else
    let idealDaily := allowance / (totalDays : ℚ)
    if bal < 0 then .critical
    else if db < idealDaily * 0.5 then .tight
    else if db ≥ idealDaily then .healthy
    else .careful

/-- Health status of a ledger record on the calendar date `(y, m, d)`
(JavaScript month index `m`), composing `updateDashboard`'s inputs with
`updateHealthIndicator`. -/
def healthOf (st : LedgerState) (y : ℤ) (m : ℕ) (d : ℤ) : HealthStatus :=
  updateHealthIndicator st.allowance (balance st) (remainingDaysOf y m d)
    (daysInMonth y m)

/-- Spec-side restatement of the five health rules, for comparison with
`healthOf`: precedence order with first match winning, using the spec's
formulas `dailyBudget = balance / max(remainingDays, 1)` and
`idealDaily = allowance / daysInMonth`. -/
def healthSpecRules (st : LedgerState) (y : ℤ) (m : ℕ) (d : ℤ) : HealthStatus :=
  let bal := balance st
  let db := bal / max ((remainingDaysOf y m d : ℤ) : ℚ) 1
  let idealDaily := st.allowance / (((daysInMonth y m : ℕ) : ℤ) : ℚ)
  if st.allowance = 0 then .setAllowance
  else if bal < 0 then .critical
  else if db < idealDaily * 0.5 then .tight
  else if db ≥ idealDaily then .healthy
  else .careful

/-- What the savings card displays as its main text. -/
inductive SavingsText where
  | noGoalSet
  | ofGoal (saved goal : ℚ)
deriving DecidableEq, Repr

/-- Outputs of `updateSavingsProgress`: the text line, the rounded
percentage figure, and the progress-bar width (the unrounded clamp). -/
structure SavingsView where
  text : SavingsText
  percent : ℤ
  barWidth : ℚ
deriving DecidableEq, Repr

/-- The branch structure of `updateSavingsProgress(balance)`: the
`state.goal === 0` early return, otherwise
`progress = Math.min(100, Math.max(0, balance / goal * 100))`,
text `Math.max(0, balance)` of `goal`, percentage
`Math.round(progress)`, bar width `progress`. -/
def updateSavingsProgress (goal bal : ℚ) : SavingsView :=
  if goal = 0 then ⟨.noGoalSet, 0, 0⟩
  else
    let progress := min 100 (max 0 (bal / goal * 100))
    ⟨.ofGoal (max 0 bal) goal, round progress, progress⟩

/-! ## Persistence adapter (`loadData` / `saveData`) -/

/-- JSON parse trees.  `dateStr d` stands for the string literal of the
calendar date whose epoch day is `d` (the `"YYYY-MM-DD"` strings the app
stores in `expense.date`), consistent with the day-number representation
of dates used throughout. -/
inductive Json where
  | null
  | bool (b : Bool)
  | num (q : ℚ)
  | str (s : String)
  | dateStr (day : ℤ)
  | arr (xs : List Json)
  | obj (fields : List (String × Json))

/-- Property access `j.k` on a parsed value: `some` the field value on
an object that has the key, otherwise `none` (JavaScript `undefined`). -/
def Json.getField : Json → String → Option Json
  | .obj fs, k => fs.lookup k
  | _, _ => none

/-- JavaScript truthiness of a parsed JSON value (`null`, `false`, `0`
and `""` are falsy; every object and array, including `[]`, is truthy). -/
def jsTruthy : Json → Bool
  | .null => false
  | .bool b => b
  | .num q => decide (q ≠ 0)
  | .str s => decide (s ≠ "")
  | .dateStr _ => true
  | .arr _ => true
  | .obj _ => true

/-- The coalescing read `parsed.f || 0` in `loadData`, for the numeric
fields `allowance` and `goal`.  (A truthy value of a different runtime
type could only arrive via externally hand-edited storage; the model
restricts to the numeric payloads the app itself writes.) -/
def numOrZero : Option Json → ℚ
  | some v => if jsTruthy v then (match v with | .num q => q | _ => 0) else 0
  | none => 0

/-- The coalescing read `parsed.expenses || []` in `loadData`.  An empty
array is truthy, so a stored empty list is kept as-is. -/
def arrOrEmpty : Option Json → List Json
  | some v => if jsTruthy v then (match v with | .arr xs => xs | _ => []) else []
  | none => []

/-- Numeric field of a parsed expense object. -/
def fieldNum (v : Json) (k : String) : ℚ :=
  match v.getField k with | some (.num q) => q | _ => 0

/-- String field of a parsed expense object. -/
def fieldStr (v : Json) (k : String) : String :=
  match v.getField k with | some (.str s) => s | _ => ""

/-- Date-string field of a parsed expense object. -/
def fieldDate (v : Json) (k : String) : ℤ :=
  match v.getField k with | some (.dateStr d) => d | _ => 0

/-- A parsed expense object read back into the expense shape the app
writes (in JavaScript the parsed objects flow through unchanged; the
model projects the five known fields). -/
def decodeExpense (v : Json) : Expense :=
  ⟨fieldNum v "id", fieldNum v "amount", fieldStr v "category",
   fieldDate v "date", fieldStr v "note"⟩

/-- Serialisation of one expense, as it appears inside
`JSON.stringify(state)`. -/
def encodeExpense (e : Expense) : Json :=
  .obj [("id", .num e.id), ("amount", .num e.amount),
        ("category", .str e.category), ("date", .dateStr e.date),
        ("note", .str e.note)]

/-- Serialisation of the whole state object: `JSON.stringify(state)`. -/
def encodeState (st : LedgerState) : Json :=
  .obj [("allowance", .num st.allowance), ("goal", .num st.goal),
        ("expenses", .arr (st.expenses.map encodeExpense))]

/-- Contents of `localStorage.getItem('hostelFinanceData')`: absent, a
parsable JSON document, or a blob `JSON.parse` throws on (`corrupt`
stands for any such string, e.g. `"{"`). -/
inductive Stored where
  | empty
  | corrupt
  | json (j : Json)

/-- The persistence read `loadData()`.  With no saved data the guard
`if (savedData)` is skipped and the state keeps its zero defaults.  With
a parsable blob, each field is read with the `|| default` coalescing.
With an unparsable blob, `JSON.parse(savedData)` throws a `SyntaxError`
which `loadData` does not catch, modelled as `Except.error`. -/
def loadData : Stored → Except String LedgerState
  | .empty => .ok initialState
  | .corrupt => .error "SyntaxError"
  | .json j =>
      .ok ⟨numOrZero (j.getField "allowance"), numOrZero (j.getField "goal"),
           (arrOrEmpty (j.getField "expenses")).map decodeExpense⟩

/-- The persistence write `saveData()`:
`localStorage.setItem('hostelFinanceData', JSON.stringify(state))`,
overwriting the slot with the serialised state. -/
def saveData (st : LedgerState) : Stored :=
  .json (encodeState st)

/-! ## Form handlers (`setupEventListeners`) and `deleteExpense` -/

/-- Result of `parseFloat` on a form input: `none` models `NaN`
(non-numeric input), `some a` a numeric value. -/
abbrev FloatInput := Option ℚ

/-- The guard `amount > 0` on a `parseFloat` result: every comparison
with `NaN` is false. -/
def jsGtZero : FloatInput → Bool
  | some a => decide (0 < a)
  | none => false

/-- The allowance-form submit handler: if `amount > 0`, set
`state.allowance` and save; otherwise do nothing.  The boolean records
whether `saveData()` ran. -/
def allowanceSubmit (st : LedgerState) (amount : FloatInput) :
    LedgerState × Bool :=
  if jsGtZero amount then
    ({ st with allowance := amount.getD 0 }, true)
  else (st, false)

/-- The goal-form submit handler: same contract as the allowance form,
replacing `state.goal`. -/
def goalSubmit (st : LedgerState) (amount : FloatInput) :
    LedgerState × Bool :=
  if jsGtZero amount then
    ({ st with goal := amount.getD 0 }, true)
  else (st, false)

/-- The expense-form submit handler: the guard is
`if (amount > 0 && date)`, where `date` is the raw input string ("" when
absent, modelled as `none`).  On success a new expense
`{id: Date.now(), amount, category, date, note}` is pushed and the state
saved. -/
def expenseSubmit (st : LedgerState) (amount : FloatInput)
    (category : String) (date : Option ℤ) (note : String) (newId : ℚ) :
    LedgerState × Bool :=
  match date with
  | some dt =>
      if jsGtZero amount then
        ({ st with
            expenses := st.expenses ++ [⟨newId, amount.getD 0, category, dt, note⟩] },
         true)
      else (st, false)
  | none => (st, false)

/-- The global `deleteExpense(id)`: behind a `confirm()` dialog, keep
exactly the expenses with `exp.id !== id` and save. -/
def deleteExpense (st : LedgerState) (targetId : ℚ) (confirmed : Bool) :
    LedgerState × Bool :=
  if confirmed then
    ({ st with expenses := st.expenses.filter (fun e => decide (e.id ≠ targetId)) },
     true)
  else (st, false)

/-! ## Expense filter/sort (`renderExpenses` / `isSameDay`) -/

/-- The three filter keywords of `renderExpenses` (`btn.dataset.filter`;
`all` is the default). -/
inductive FilterMode where
  | all
  | today
  | week
deriving DecidableEq, Repr

/-- The instant `new Date("YYYY-MM-DD")` parses to: UTC midnight of that
calendar date, in minutes since the epoch. -/
def dateInstant (day : ℤ) : ℤ := day * 1440

/-- The local calendar day (epoch day number) an instant falls on, in a
timezone with fixed UTC offset `tz` minutes: what the component getters
`getFullYear()/getMonth()/getDate()` jointly read. -/
def localDay (tz ts : ℤ) : ℤ := (ts + tz) / 1440

/-- The helper `isSameDay(d1, d2)`: the two instants have equal local
year, month and day, i.e. equal local calendar days. -/
def isSameDay (tz t1 t2 : ℤ) : Bool := localDay tz t1 == localDay tz t2

/-- The bound built by `oneWeekAgo.setDate(now.getDate() - 7)`: the
current instant moved back exactly 7 calendar days keeping the
time-of-day, i.e. `now - 7 * 24 * 60` minutes under a fixed UTC offset. -/
def oneWeekAgo (now : ℤ) : ℤ := now - 7 * 1440

/-- The week-filter predicate `new Date(exp.date) >= oneWeekAgo`. -/
def weekKeep (now : ℤ) (e : Expense) : Bool :=
  decide (oneWeekAgo now ≤ dateInstant e.date)

/-- The sort comparator `(a, b) => new Date(b.date) - new Date(a.date)`:
`a` may precede `b` iff `a`'s date instant is at least `b`'s (newest
first). -/
def byDateDesc (a b : Expense) : Bool :=
  decide (dateInstant b.date ≤ dateInstant a.date)

/-- The pure core of `renderExpenses(filter)`: copy the expense list,
apply the `today` / `week` filter if requested, then sort by date
descending.  `tz` is the environment's fixed UTC offset in minutes and
`now` the current instant. -/
def renderExpenses (mode : FilterMode) (es : List Expense) (tz now : ℤ) :
    List Expense :=
  (match mode with
   | .all => es
   | .today => es.filter (fun e => isSameDay tz (dateInstant e.date) now)
   | .week => es.filter (fun e => weekKeep now e)).mergeSort byDateDesc

/-! ## Helper lemmas -/

/-- Reading back a numeric field written by `saveData`. -/
lemma numOrZero_num (q : ℚ) : numOrZero (some (.num q)) = q := by
  by_cases h : q = 0 <;> simp [numOrZero, jsTruthy, h]

lemma getField_allowance (st : LedgerState) :
    (encodeState st).getField "allowance" = some (.num st.allowance) := rfl

lemma getField_goal (st : LedgerState) :
    (encodeState st).getField "goal" = some (.num st.goal) := rfl

lemma getField_expenses (st : LedgerState) :
    (encodeState st).getField "expenses"
      = some (.arr (st.expenses.map encodeExpense)) := rfl

/-- Round-trip of the persistence adapter: reading back immediately
after a save reproduces the state, including the `|| default`
coalescing on each field. -/
lemma load_save_eq (st : LedgerState) : loadData (saveData st) = .ok st := by
  simp only [loadData, saveData, getField_allowance, getField_goal, getField_expenses,
    numOrZero_num, arrOrEmpty, jsTruthy, if_true, List.map_map]
  have h : decodeExpense ∘ encodeExpense = id := funext fun e => rfl
  simp [h]

/-- The JavaScript denominator `(remainingDays || 1)` agrees with the
spec's `max(remainingDays, 1)` whenever `remainingDays` is
non-negative. -/
lemma jsDenom_eq_max (r : ℤ) (h : 0 ≤ r) : jsDenom r = max (r : ℚ) 1 := by
  rcases eq_or_lt_of_le h with h0 | h1
  · simp [jsDenom, ← h0]
  · have h2 : (1 : ℚ) ≤ (r : ℚ) := by exact_mod_cast h1
    rw [jsDenom, if_neg (by omega), max_eq_left h2]

/-- An input rejected by the `amount > 0` validation: `parseFloat`
returned `NaN` or a non-positive number. -/
def invalidAmount (i : FloatInput) : Prop := ∀ a : ℚ, i = some a → a ≤ 0

lemma jsGtZero_eq_false {i : FloatInput} (hi : invalidAmount i) :
    jsGtZero i = false := by
  match i with
  | none => rfl
  | some a =>
      simp only [jsGtZero, decide_eq_false_iff_not, not_lt]
      exact hi a rfl

/-! ## Claims -/

/-- C1, counterexample.  The claim says an unparsable stored blob makes
`load()` return the zero-default record without a fatal error; in the
code `JSON.parse` throws and `loadData` has no `try`/`catch`, so on an
unparsable blob (e.g. the stored string `"{"`) it does not return the
zero-default record — the `SyntaxError` propagates. -/
theorem c1_counterexample : loadData Stored.corrupt ≠ Except.ok initialState := by
  simp [loadData]

/-- C1, amended.  `load()` returns the zero-default record when no data
exists and the last saved record when a valid one exists, but an
unparsable stored blob is not recovered: the parse error propagates out
of `load()` instead of yielding the zero-default record. -/
theorem c1_load_behavior :
    loadData Stored.empty = Except.ok initialState ∧
    (∀ st : LedgerState, loadData (saveData st) = Except.ok st) ∧
    loadData Stored.corrupt = Except.error "SyntaxError" :=
  ⟨rfl, load_save_eq, rfl⟩

/-- C2.  For every ledger record and every valid today-date `(y, m, d)`
(with `1 ≤ d ≤ daysInMonth`), the health status computed by the code
equals the five spec rules evaluated in precedence order with first
match winning, and the result is always exactly one of the five
statuses. -/
theorem c2_health_precedence (st : LedgerState) (y : ℤ) (m : ℕ) (d : ℤ)
    (h1 : 1 ≤ d) (h2 : d ≤ (daysInMonth y m : ℤ)) :
    healthOf st y m d = healthSpecRules st y m d ∧
    (healthOf st y m d = .setAllowance ∨ healthOf st y m d = .critical ∨
     healthOf st y m d = .tight ∨ healthOf st y m d = .healthy ∨
     healthOf st y m d = .careful) := by
  constructor
  · have hd : jsDenom (remainingDaysOf y m d)
        = max ((remainingDaysOf y m d : ℤ) : ℚ) 1 :=
      jsDenom_eq_max _ (by unfold remainingDaysOf; omega)
    simp only [healthOf, healthSpecRules, updateHealthIndicator, dailyBudget, hd]
  · cases h : healthOf st y m d <;> simp [h]

/-- Witness for C2 at the spec's Scenario A: allowance 1000, goal 500,
no expenses, day 1 of the 30-day month April 2024. -/
theorem c2_health_precedence_witness :
    healthOf ⟨1000, 500, []⟩ 2024 3 1 = healthSpecRules ⟨1000, 500, []⟩ 2024 3 1 :=
  (c2_health_precedence ⟨1000, 500, []⟩ 2024 3 1 (by decide) (by decide)).1

/-- C3.  A `setAllowance` or `setGoal` submission with a non-positive or
non-numeric amount, and an `addExpense` submission with a non-positive
or non-numeric amount or an absent date, is rejected silently: the
prior state is returned unchanged and no save occurs. -/
theorem c3_invalid_rejected (st : LedgerState) (i j k : FloatInput)
    (cat note : String) (dt : Option ℤ) (nid : ℚ)
    (hi : invalidAmount i) (hj : invalidAmount j)
    (hk : invalidAmount k ∨ dt = none) :
    allowanceSubmit st i = (st, false) ∧ goalSubmit st j = (st, false) ∧
    expenseSubmit st k cat dt note nid = (st, false) := by
  refine ⟨?_, ?_, ?_⟩
  · simp [allowanceSubmit, jsGtZero_eq_false hi]
  · simp [goalSubmit, jsGtZero_eq_false hj]
  · rcases dt with _ | dtv
    · rfl
    · rcases hk with hk | hk
      · simp [expenseSubmit, jsGtZero_eq_false hk]
      · exact absurd hk (by simp)

/-- Witness for C3: a negative allowance amount, a non-numeric goal
amount, and an expense with a positive amount but no date are all
rejected on the zero-default state. -/
theorem c3_invalid_rejected_witness :
    allowanceSubmit initialState (some (-5)) = (initialState, false) ∧
    goalSubmit initialState none = (initialState, false) ∧
    expenseSubmit initialState (some 3) "food" none "" 1 = (initialState, false) :=
  c3_invalid_rejected initialState (some (-5)) none (some 3) "food" "" none 1
    (by intro a ha; simp only [Option.some.injEq] at ha; rw [← ha]; norm_num)
    (by intro a ha; simp at ha)
    (Or.inr rfl)

/-- C4, counterexample.  The claim says an expense dated exactly 7 days
before today passes the week filter; here (UTC environment, now = epoch
day 20000 at 10:00) the expense dated day 19993 = today − 7 is
excluded, because the code compares the date's UTC-midnight instant
against `now − 7 days` with the time-of-day kept. -/
theorem c4_counterexample :
    renderExpenses .week [⟨1, 5, "food", 19993, ""⟩] 0 (20000 * 1440 + 600) = [] ∧
    (19993 : ℤ) = localDay 0 (20000 * 1440 + 600) - 7 := by
  constructor
  · simp [renderExpenses, weekKeep, oneWeekAgo, dateInstant]
  · decide

/-- C4, amended.  The week filter keeps exactly the expenses whose
date's UTC-midnight instant is at or after the instant exactly
7 × 24 h before now; in a UTC environment that is the expenses dated
on/after today − 7 when now is exactly midnight, and on/after
today − 6 otherwise (so an expense dated exactly 7 days before today is
then excluded).  There is no upper bound and future-dated expenses
always pass. -/
theorem c4_week_window (es : List Expense) (tz now : ℤ) (e : Expense) :
    (e ∈ renderExpenses .week es tz now ↔
      e ∈ es ∧ oneWeekAgo now ≤ dateInstant e.date) ∧
    (now % 1440 = 0 →
      (oneWeekAgo now ≤ dateInstant e.date ↔ localDay 0 now - 7 ≤ e.date)) ∧
    (now % 1440 ≠ 0 →
      (oneWeekAgo now ≤ dateInstant e.date ↔ localDay 0 now - 6 ≤ e.date)) ∧
    (-1440 < tz → tz < 1440 → localDay tz now < e.date →
      oneWeekAgo now ≤ dateInstant e.date) := by
  refine ⟨?_, ?_, ?_, ?_⟩
  · simp [renderExpenses, weekKeep, List.mem_filter]
  · intro h
    simp only [oneWeekAgo, dateInstant, localDay]
    omega
  · intro h
    simp only [oneWeekAgo, dateInstant, localDay]
    omega
  · intro h1 h2 h3
    simp only [oneWeekAgo, dateInstant]
    simp only [localDay] at h3
    omega

/-- Witness for C4 at a concrete instant 10:00 on epoch day 20000 (not
midnight): the week filter's effective lower bound is day 19994 =
today − 6. -/
theorem c4_week_window_witness :
    oneWeekAgo (20000 * 1440 + 600) ≤ dateInstant (19994 : ℤ) ↔
      localDay 0 (20000 * 1440 + 600) - 6 ≤ (19994 : ℤ) :=
  (c4_week_window [] 0 (20000 * 1440 + 600) ⟨1, 5, "food", 19994, ""⟩).2.2.1
    (by decide)

/-- C5, counterexample.  The claim says the today filter selects every
expense dated today; in a UTC−5 environment (offset −300 minutes, now
at 10:00 UTC of epoch day 20000 = the local day 20000) the expense
dated day 20000 — today — is excluded, because its date string parses
to UTC midnight, which falls on the previous local calendar day. -/
theorem c5_counterexample :
    renderExpenses .today [⟨1, 5, "food", 20000, ""⟩] (-300) (20000 * 1440 + 600) = [] ∧
    (20000 : ℤ) = localDay (-300) (20000 * 1440 + 600) := by
  constructor
  · simp [renderExpenses, isSameDay, localDay, dateInstant]
  · decide

/-- C5, amended.  The today filter compares the local calendar day of
the date's UTC-midnight instant with today's local calendar day: with a
non-negative UTC offset (less than 24 h) it selects exactly the
expenses dated today (every same-day expense appears, all others are
excluded), but with a negative offset it selects exactly the expenses
dated the day after today. -/
theorem c5_today_filter (es : List Expense) (tz now : ℤ) (e : Expense) :
    (e ∈ renderExpenses .today es tz now ↔
      e ∈ es ∧ isSameDay tz (dateInstant e.date) now = true) ∧
    (0 ≤ tz → tz < 1440 →
      (isSameDay tz (dateInstant e.date) now = true ↔ e.date = localDay tz now)) ∧
    (-1440 < tz → tz < 0 →
      (isSameDay tz (dateInstant e.date) now = true ↔
        e.date = localDay tz now + 1)) := by
  refine ⟨?_, ?_, ?_⟩
  · simp [renderExpenses, List.mem_filter]
  · intro h1 h2
    simp only [isSameDay, localDay, dateInstant, beq_iff_eq]
    constructor <;> intro h <;> omega
  · intro h1 h2
    simp only [isSameDay, localDay, dateInstant, beq_iff_eq]
    constructor <;> intro h <;> omega

/-- Witness for C5 in a UTC environment (offset 0) at 10:00 of epoch
day 20000: the today filter keeps an expense iff it is dated day
20000. -/
theorem c5_today_filter_witness :
    isSameDay 0 (dateInstant (20000 : ℤ)) (20000 * 1440 + 600) = true ↔
      (20000 : ℤ) = localDay 0 (20000 * 1440 + 600) :=
  (c5_today_filter [] 0 (20000 * 1440 + 600) ⟨1, 5, "food", 20000, ""⟩).2.1
    (by decide) (by decide)

/-- C6.  For every ledger record and every valid today-date, the daily
budget computed by the code equals `balance / max(remainingDays, 1)`
with `balance = allowance − totalSpent` and
`remainingDays = daysInMonth − dayOfMonth`, and the denominator is
positive — in particular no division by zero occurs on the last day of
the month. -/
theorem c6_daily_budget (st : LedgerState) (y : ℤ) (m : ℕ) (d : ℤ)
    (h1 : 1 ≤ d) (h2 : d ≤ (daysInMonth y m : ℤ)) :
    balance st = st.allowance - totalSpent st ∧
    dailyBudget (balance st) (remainingDaysOf y m d)
      = balance st / max ((remainingDaysOf y m d : ℤ) : ℚ) 1 ∧
    (0 : ℚ) < jsDenom (remainingDaysOf y m d) := by
  have h0 : (0 : ℤ) ≤ remainingDaysOf y m d := by unfold remainingDaysOf; omega
  have hd := jsDenom_eq_max _ h0
  refine ⟨rfl, ?_, ?_⟩
  · rw [dailyBudget, hd]
  · rw [hd]; positivity

/-- Witness for C6 on the last day of a month (29 February 2024, a leap
year): the remaining-days denominator is still positive. -/
theorem c6_daily_budget_witness :
    (0 : ℚ) < jsDenom (remainingDaysOf 2024 1 29) :=
  (c6_daily_budget initialState 2024 1 29 (by decide) (by decide)).2.2

/-- C7.  For every balance and every goal > 0, the savings progress
equals `clamp(balance / goal * 100, 0, 100)`, hence lies in [0, 100],
the displayed saved amount is `max(balance, 0)` and the displayed
percentage is the rounded clamp; when the goal is 0 the view is the
"no goal set" presentation with zero progress. -/
theorem c7_savings_progress (bal goal : ℚ) :
    (0 < goal →
      (updateSavingsProgress goal bal).barWidth
          = min 100 (max 0 (bal / goal * 100)) ∧
      0 ≤ (updateSavingsProgress goal bal).barWidth ∧
      (updateSavingsProgress goal bal).barWidth ≤ 100 ∧
      (updateSavingsProgress goal bal).text = .ofGoal (max 0 bal) goal ∧
      (updateSavingsProgress goal bal).percent
          = round (min 100 (max 0 (bal / goal * 100)))) ∧
    (goal = 0 → updateSavingsProgress goal bal = ⟨.noGoalSet, 0, 0⟩) := by
  constructor
  · intro h
    have hne : goal ≠ 0 := ne_of_gt h
    unfold updateSavingsProgress
    rw [if_neg hne]
    exact ⟨rfl, le_min (by norm_num) (le_max_left 0 _), min_le_left _ _, rfl, rfl⟩
  · intro h
    rw [h]
    rfl

/-- Witness for C7 at balance 250 over goal 100: the progress bar width
is clamped to at most 100. -/
theorem c7_savings_progress_witness :
    (updateSavingsProgress 100 250).barWidth ≤ 100 :=
  ((c7_savings_progress 250 100).1 (by norm_num)).2.2.1

/-- C8.  For every ledger record, loading immediately after saving it
returns a record equal to the one saved (save/load round-trip law). -/
theorem c8_save_load_roundtrip (st : LedgerState) :
    loadData (saveData st) = Except.ok st :=
  load_save_eq st

/-- C9.  For every expense list, environment (timezone offset and
current instant) and filter mode, the rendered sequence is sorted by
date in descending order: every later entry's date instant is at most
every earlier entry's. -/
theorem c9_sorted_descending (mode : FilterMode) (es : List Expense) (tz now : ℤ) :
    List.Pairwise (fun a b => dateInstant b.date ≤ dateInstant a.date)
      (renderExpenses mode es tz now) := by
  unfold renderExpenses
  refine List.Pairwise.imp ?_ (List.sorted_mergeSort ?_ ?_ _)
  · intro a b hab
    simpa [byDateDesc] using hab
  · intro a b c hab hbc
    simp only [byDateDesc, decide_eq_true_eq] at *
    omega
  · intro a b
    simp only [byDateDesc]
    rcases le_total (dateInstant b.date) (dateInstant a.date) with h | h <;> simp [h]

/-- C10.  Each successful mutation touches only its own part of the
record: `setAllowance` replaces only the allowance, `setGoal` only the
goal, `addExpense` appends exactly one entry leaving allowance, goal
and the existing entries unchanged, and a confirmed `removeExpense`
leaves allowance and goal unchanged and only removes entries (the
resulting expense list is a sublist of the prior one). -/
theorem c10_frame (st : LedgerState) (a g amt : ℚ) (cat note : String)
    (dt : ℤ) (nid rid : ℚ) (ha : 0 < a) (hg : 0 < g) (hamt : 0 < amt) :
    (allowanceSubmit st (some a)).1 = { st with allowance := a } ∧
    (goalSubmit st (some g)).1 = { st with goal := g } ∧
    (expenseSubmit st (some amt) cat (some dt) note nid).1
      = { st with expenses := st.expenses ++ [⟨nid, amt, cat, dt, note⟩] } ∧
    (deleteExpense st rid true).1.allowance = st.allowance ∧
    (deleteExpense st rid true).1.goal = st.goal ∧
    (deleteExpense st rid true).1.expenses.Sublist st.expenses := by
  refine ⟨?_, ?_, ?_, rfl, rfl, ?_⟩
  · simp [allowanceSubmit, jsGtZero, ha]
  · simp [goalSubmit, jsGtZero, hg]
  · simp [expenseSubmit, jsGtZero, hamt]
  · simp only [deleteExpense, if_pos]
    exact List.filter_sublist _

/-- Witness for C10: a valid expense submission on a small concrete
state appends exactly the new entry. -/
theorem c10_frame_witness :
    (expenseSubmit ⟨100, 50, []⟩ (some 7) "food" (some 19801) "x" 2).1
      = ⟨100, 50, [⟨2, 7, "food", 19801, "x"⟩]⟩ :=
  (c10_frame ⟨100, 50, []⟩ 1 1 7 "food" "x" 19801 2 3 (by norm_num) (by norm_num)
    (by norm_num)).2.2.1

end StudentFinance
